import Mathlib

/-!
Verification of the Rabirubia marine forecast card generator
(`scripts/generate_card.py`).

The development shallowly embeds the pure text-processing core of the
script: the per-zone field extractor `parse_zone`, the advisory
classifier `get_advisories`, the synopsis extractor (the pattern part of
`fetch_synopsis`), and the moon-phase arithmetic of `get_moon_phase`.

Python strings are modelled as `List Char` (converted at the `String`
API boundary); the Python `dict` returned by `parse_zone` is modelled as
an association list, so that "all fields present" is a real statement.
Each `re` pattern of the source is translated into a specialised
matcher that reproduces Python's leftmost search, ordered alternation,
greedy/lazy repetition with backtracking, and case-insensitivity flags
for that concrete pattern.  Float arithmetic of the moon-phase code is
modelled over `ℝ`, with Python's `%` as the sign-correct (floor)
modulus and Python's `int()` as truncation toward zero.
-/

namespace Rabirubia

/-! ### ASCII character helpers (Python `str.lower`, `str.upper`, `\s`, `\d`, `\w`) -/

/-- Python `str.lower()` restricted to ASCII (all bulletin text is ASCII). -/
def lowerChar (c : Char) : Char :=
  if 65 ≤ c.toNat ∧ c.toNat ≤ 90 then Char.ofNat (c.toNat + 32) else c

/-- Python `str.upper()` restricted to ASCII. -/
def upperChar (c : Char) : Char :=
  if 97 ≤ c.toNat ∧ c.toNat ≤ 122 then Char.ofNat (c.toNat - 32) else c

/-- Case-insensitive character comparison, as under `re.IGNORECASE`. -/
def ciEq (a b : Char) : Bool := lowerChar a == lowerChar b

/-- Python regex `\s` (ASCII range): space, tab, newline, CR, VT, FF. -/
def isSpaceChar (c : Char) : Bool :=
  c == ' ' || c == '\t' || c == '\n' || c == '\r' || c == Char.ofNat 11 || c == Char.ofNat 12

/-- Python regex `\d` (ASCII). -/
def isDigitChar (c : Char) : Bool := 48 ≤ c.toNat && c.toNat ≤ 57

/-- ASCII letter, for `[A-Z]` under `re.IGNORECASE` and for `str.title()`. -/
def isLetterChar (c : Char) : Bool :=
  (65 ≤ c.toNat && c.toNat ≤ 90) || (97 ≤ c.toNat && c.toNat ≤ 122)

/-- Python regex `\w` (ASCII): letters, digits, underscore. -/
def isWordChar (c : Char) : Bool := isLetterChar c || isDigitChar c || c == '_'

/-! ### Literal matching, containment, trimming, collapsing -/

/-- Match the literal `lit` case-insensitively at the head of `s`; return the rest. -/
def dropLitCI : List Char → List Char → Option (List Char)
  | [], s => some s
  | _ :: _, [] => none
  | c :: lt, d :: s => if ciEq c d then dropLitCI lt s else none

/-- Match the literal `lit` case-sensitively at the head of `s`; return the rest. -/
def dropLit : List Char → List Char → Option (List Char)
  | [], s => some s
  | _ :: _, [] => none
  | c :: lt, d :: s => if c == d then dropLit lt s else none

/-- Substring containment (case-sensitive), Python `needle in hay`. -/
def hasSubList (needle : List Char) : List Char → Bool
  | [] => needle.isEmpty
  | s@(_ :: rest) => (dropLit needle s).isSome || hasSubList needle rest

/-- Case-insensitive substring containment. -/
def hasSubCI (needle : List Char) : List Char → Bool
  | [] => needle.isEmpty
  | s@(_ :: rest) => (dropLitCI needle s).isSome || hasSubCI needle rest

/-- Python `str.strip()` (whitespace at both ends). -/
def trimWS (s : List Char) : List Char :=
  ((s.dropWhile isSpaceChar).reverse.dropWhile isSpaceChar).reverse

/-- One step of whitespace collapsing; `prevWs` records whether the previous
character was part of a whitespace run already emitted as a single space. -/
def collapseGo : Bool → List Char → List Char
  | _, [] => []
  | prevWs, c :: rest =>
    if isSpaceChar c then
      if prevWs then collapseGo true rest else ' ' :: collapseGo true rest
    else c :: collapseGo false rest

/-- Python `re.sub(r"\s+", " ", s)`: collapse every whitespace run to one space. -/
def collapseWS (s : List Char) : List Char := collapseGo false s

/-- One step of `str.title()`; `prev` records whether the previous character was cased. -/
def titleGo : Bool → List Char → List Char
  | _, [] => []
  | prev, c :: rest =>
    if isLetterChar c then
      (if prev then lowerChar c else upperChar c) :: titleGo true rest
    else c :: titleGo false rest

/-- Python `str.title()` (ASCII). -/
def pyTitle (s : List Char) : List Char := titleGo false s

/-- Consume one-or-more whitespace (regex `\s+`, always followed by a
non-whitespace token in the embedded patterns, so maximal munch is exact). -/
def wsPlus : List Char → Option (List Char)
  | [] => none
  | c :: rest => if isSpaceChar c then some (rest.dropWhile isSpaceChar) else none

/-- Split off a nonempty maximal run of characters satisfying `p`
(regex `\d+` / `\w+`, always followed by a token disjoint from `p`). -/
def takeSome (p : Char → Bool) (s : List Char) : Option (List Char × List Char) :=
  match s with
  | [] => none
  | c :: _ => if p c then some (s.takeWhile p, s.dropWhile p) else none

/-- Greedily consume `c` if present, case-insensitively (regex `c?` where the
continuation can never match `c`, e.g. the optional `s` of `winds?`). -/
def optCharCI (c : Char) (s : List Char) : List Char :=
  match s with
  | d :: rest => if ciEq c d then rest else s
  | [] => s

/-! ### Python `dict` as an association list -/

/-- `d[k]` lookup (first binding wins, as in a `dict` where keys are unique). -/
def dget : List (String × String) → String → Option String
  | [], _ => none
  | (k', v) :: rest, k => if k = k' then some v else dget rest k

/-- `d[k] = v`: replace the binding of `k`, or append it if absent. -/
def dset : List (String × String) → String → String → List (String × String)
  | [], k, v => [(k, v)]
  | (k', v') :: rest, k, v =>
    if k = k' then (k, v) :: rest else (k', v') :: dset rest k v

/-- `match o: some v → d[k] = v | none → d` — the shape of every
`if m: data[...] = ...` block in `parse_zone`. -/
def applyOpt (d : List (String × String)) (k : String) : Option String → List (String × String)
  | some v => dset d k v
  | none => d

/-! ### Advisory search
`re.search(r"(SMALL CRAFT ADVISORY[^\n]*|GALE WARNING[^\n]*|STORM WARNING[^\n]*|HURRICANE FORCE[^\n]*)", text, re.IGNORECASE)` -/

/-- The four hazard-phrase alternatives, in the pattern's order. -/
def advisoryPhrases : List (List Char) :=
  ["SMALL CRAFT ADVISORY".data, "GALE WARNING".data, "STORM WARNING".data,
   "HURRICANE FORCE".data]

/-- Try each alternative at the current position; on a hit the group is the
matched text (original casing) followed by the rest of the line (`[^\n]*`). -/
def tryAdvPhrases : List (List Char) → List Char → Option (List Char)
  | [], _ => none
  | p :: ps, s =>
    match dropLitCI p s with
    | some rest => some (s.take p.length ++ rest.takeWhile (fun c => c != '\n'))
    | none => tryAdvPhrases ps s

/-- Leftmost search for the advisory pattern over the whole bulletin text. -/
def advSearch : List Char → Option (List Char)
  | [] => none
  | s@(_ :: rest) => tryAdvPhrases advisoryPhrases s <|> advSearch rest

/-! ### Today-window isolation
`re.search(r"\.TODAY\.\.\.(.*?)(?=\.TONIGHT|\.WEDNESDAY NIGHT|\.THURSDAY NIGHT|\.FRIDAY|\Z)", text, re.DOTALL | re.IGNORECASE)`
with fallback `re.search(r"TODAY\s*\n(.*?)(?=TONIGHT|\Z)", ...)`. -/

/-- Lazy `(.*?)(?=...|\Z)` under DOTALL: extend the capture minimally until the
`stop` lookahead holds or the input ends (`\Z` always succeeds at the end). -/
def lazyUpTo (stop : List Char → Bool) : List Char → List Char
  | [] => []
  | s@(c :: rest) => if stop s then [] else c :: lazyUpTo stop rest

/-- Does one of the literals match case-insensitively at this position? -/
def startsAnyCI (lits : List (List Char)) (s : List Char) : Bool :=
  lits.any fun l => (dropLitCI l s).isSome

/-- The lookahead alternatives ending the primary TODAY window. -/
def todayEnders : List (List Char) :=
  [".TONIGHT".data, ".WEDNESDAY NIGHT".data, ".THURSDAY NIGHT".data, ".FRIDAY".data]

/-- Primary TODAY pattern: leftmost `.TODAY...` (case-insensitive), capture
lazily up to an ender or the end of the text. -/
def todaySearch1 : List Char → Option (List Char)
  | [] => none
  | s@(_ :: rest) =>
    (match dropLitCI ".TODAY...".data s with
     | some r => some (lazyUpTo (startsAnyCI todayEnders) r)
     | none => none) <|> todaySearch1 rest

/-- Fallback TODAY pattern: `TODAY\s*\n(.*?)(?=TONIGHT|\Z)`.  After `TODAY`,
greedy `\s*` then `\n` consumes the whitespace run up to and including its
last newline (backtracking from the maximal run); no newline in the run means
this start fails and the scan moves on. -/
def todaySearch2 : List Char → Option (List Char)
  | [] => none
  | s@(_ :: rest) =>
    (match dropLitCI "TODAY".data s with
     | some r =>
       let run := r.takeWhile isSpaceChar
       match run.reverse.findIdx? (fun c => c == '\n') with
       | some i => some (lazyUpTo (startsAnyCI ["TONIGHT".data]) (r.drop (run.length - i)))
       | none => none
     | none => none) <|> todaySearch2 rest

/-- The normalized today-block: the captured window (or the first 1000
characters when neither pattern matches) with whitespace runs collapsed.
`block = re.sub(r"\s+", " ", today.group(1) if today else text[:1000])` -/
def todayBlockOf (s : List Char) : List Char :=
  collapseWS
    (match todaySearch1 s with
     | some g => g
     | none =>
       match todaySearch2 s with
       | some g => g
       | none => s.take 1000)

/-! ### Wind
`re.search(r"((?:North|South|East|West|NE|NW|SE|SW|[NSEW]+)(?:\s+to\s+(?:North|South|East|West|NE|NW|SE|SW|[NSEW]+))?\s+winds?\s+\d+(?:\s+to\s+\d+)?\s+knots?)", block, re.IGNORECASE)`
then `w = re.sub(r"\s*winds?\s*", " ", wm.group(1).strip(), flags=re.IGNORECASE).strip()`
and `data["wind"] = re.sub(r"\s+knots?", " kt", w, flags=re.IGNORECASE)`. -/

/-- The eight literal direction alternatives, in the pattern's order. -/
def dirLits : List (List Char) :=
  ["North".data, "South".data, "East".data, "West".data,
   "NE".data, "NW".data, "SE".data, "SW".data]

/-- Membership in the class `[NSEW]` under `re.IGNORECASE`. -/
def isNSEW (c : Char) : Bool := "NSEWnsew".data.contains c

/-- Backtrack over the munch length of `[NSEW]+`: try the greedy (longest)
munch first, then shorter ones down to one character. -/
def tryMunchNSEW (k : List Char → Option (List Char)) (s : List Char) : Nat → Option (List Char)
  | 0 => none
  | i + 1 => k (s.drop (i + 1)) <|> tryMunchNSEW k s i

/-- Ordered alternation for a direction word with full backtracking into the
continuation `k`: the eight literals first, then `[NSEW]+`. -/
def tryDirAlts (ds : List (List Char)) (k : List Char → Option (List Char))
    (s : List Char) : Option (List Char) :=
  match ds with
  | [] => tryMunchNSEW k s (s.takeWhile isNSEW).length
  | d :: rest =>
    (match dropLitCI d s with
     | some r => k r
     | none => none) <|> tryDirAlts rest k s

/-- Tail `\s+knots?` of the wind pattern (also reused by the gust/knots subs). -/
def knotsEnd (s : List Char) : Option (List Char) := do
  let s ← wsPlus s
  let s ← dropLitCI "knot".data s
  pure (optCharCI 's' s)

/-- Optional `(?:\s+to\s+\d+)` followed by `\s+knots?`. -/
def windToNum (s : List Char) : Option (List Char) := do
  let s ← wsPlus s
  let s ← dropLitCI "to".data s
  let s ← wsPlus s
  let (_, s) ← takeSome isDigitChar s
  knotsEnd s

/-- `\s+winds?\s+\d+(?:\s+to\s+\d+)?\s+knots?` (the part after the direction),
with the greedy optional `to`-number group tried before its absence. -/
def windTail (s : List Char) : Option (List Char) := do
  let s ← wsPlus s
  let s ← dropLitCI "wind".data s
  let s := optCharCI 's' s
  let s ← wsPlus s
  let (_, s) ← takeSome isDigitChar s
  windToNum s <|> knotsEnd s

/-- `(?:\s+to\s+DIR)?` then the mandatory tail: the greedy optional group is
tried first (backtracking through every way its direction can match), then
the tail alone. -/
def afterDir (s : List Char) : Option (List Char) :=
  (do
    let s1 ← wsPlus s
    let s2 ← dropLitCI "to".data s1
    let s3 ← wsPlus s2
    tryDirAlts dirLits windTail s3) <|> windTail s

/-- Whole wind pattern anchored at the current position; returns the rest
of the input after the match. -/
def windAt (s : List Char) : Option (List Char) := tryDirAlts dirLits afterDir s

/-- Leftmost search for the wind pattern; the group is the matched substring. -/
def windSearch : List Char → Option (List Char)
  | [] => none
  | s@(_ :: rest) =>
    (match windAt s with
     | some rem => some (s.take (s.length - rem.length))
     | none => none) <|> windSearch rest

/-- A match of `\s*winds?\s*` anchored here (greedy `\s*` needs no backtrack:
a shorter munch leaves a whitespace character where `w` is required). -/
def windsWordAt (s : List Char) : Option (List Char) := do
  let s ← dropLitCI "wind".data (s.dropWhile isSpaceChar)
  pure ((optCharCI 's' s).dropWhile isSpaceChar)

/-- `re.sub(r"\s*winds?\s*", " ", ·, flags=re.IGNORECASE)`: scan left to
right, replace each non-overlapping match with a single space.  The fuel is
the input length; every step consumes at least one character. -/
def subWinds : Nat → List Char → List Char
  | 0, s => s
  | _ + 1, [] => []
  | fuel + 1, s@(c :: rest) =>
    match windsWordAt s with
    | some rem => ' ' :: subWinds fuel rem
    | none => c :: subWinds fuel rest

/-- `re.sub(r"\s+knots?", " kt", ·, flags=re.IGNORECASE)`. -/
def subKnots : Nat → List Char → List Char
  | 0, s => s
  | _ + 1, [] => []
  | fuel + 1, s@(c :: rest) =>
    match knotsEnd s with
    | some rem => ' ' :: 'k' :: 't' :: subKnots fuel rem
    | none => c :: subKnots fuel rest

/-- The post-processing applied to the wind group:
strip, rewrite `winds` to a space, strip, rewrite `knots` to `kt`. -/
def windValue (g : List Char) : List Char :=
  let w := trimWS (subWinds (trimWS g).length (trimWS g))
  subKnots w.length w

/-! ### Gusts
`re.search(r"gusts?\s+(?:up\s+to\s+)?(\d+)\s+knots?", block, re.IGNORECASE)`;
on a match `data["gusts"] = "Gusts to " + gm.group(1) + " kt"`. -/

/-- The capture `(\d+)\s+knots?` part; returns the captured digits. -/
def gustsCap (s : List Char) : Option (List Char) := do
  let (d, s) ← takeSome isDigitChar s
  let _ ← knotsEnd s
  pure d

/-- Whole gusts pattern anchored here, greedy optional `up\s+to\s+` first. -/
def gustsAt (s : List Char) : Option (List Char) := do
  let s ← dropLitCI "gust".data s
  let s := optCharCI 's' s
  let s ← wsPlus s
  (do
    let s1 ← dropLitCI "up".data s
    let s2 ← wsPlus s1
    let s3 ← dropLitCI "to".data s2
    let s4 ← wsPlus s3
    gustsCap s4) <|> gustsCap s

/-- Leftmost search for the gusts pattern; returns group 1 (the digits). -/
def gustsSearch : List Char → Option (List Char)
  | [] => none
  | s@(_ :: rest) => gustsAt s <|> gustsSearch rest

/-! ### Seas
`re.search(r"[Ss]eas?\s+(\d+\s+to\s+\d+|\d+)\s+feet?", block, re.IGNORECASE)`;
on a match `data["seas"] = sm.group(1) + " ft"`. -/

/-- Tail `\s+feet?` of the seas pattern. -/
def feetEnd (s : List Char) : Option (List Char) := do
  let s ← wsPlus s
  let s ← dropLitCI "fee".data s
  pure (optCharCI 't' s)

/-- The capture alternation `(\d+\s+to\s+\d+|\d+)` with its `\s+feet?`
continuation: the range alternative is tried first, the single number only
when the range (or its continuation) fails.  Returns group 1. -/
def seasCapAlt (s : List Char) : Option (List Char) :=
  (do
    let (_, s1) ← takeSome isDigitChar s
    let s2 ← wsPlus s1
    let s3 ← dropLitCI "to".data s2
    let s4 ← wsPlus s3
    let (_, s5) ← takeSome isDigitChar s4
    let _ ← feetEnd s5
    pure (s.take (s.length - s5.length))) <|>
  (do
    let (d, s1) ← takeSome isDigitChar s
    let _ ← feetEnd s1
    pure d)

/-- Whole seas pattern anchored here. -/
def seasAt (s : List Char) : Option (List Char) := do
  let s ← dropLitCI "sea".data s
  let s := optCharCI 's' s
  let s ← wsPlus s
  seasCapAlt s

/-- Leftmost search for the seas pattern; returns group 1. -/
def seasSearch : List Char → Option (List Char)
  | [] => none
  | s@(_ :: rest) => seasAt s <|> seasSearch rest

/-! ### Wave detail
`wave = re.search(r"[Ww]ave\s+[Dd]etail:?\s*([^.;\n]+)", block)` — note: this
is the one pattern of `parse_zone` compiled WITHOUT `re.IGNORECASE`; only the
initial letters of the two words are case-flexible, via the classes `[Ww]`
and `[Dd]`.  The capture is then split on `\s+and\s+` and each part is
matched against `(\w+)\s+(\d+)\s+feet?\s+at\s+(\d+)\s+seconds?`. -/

/-- The class `[^.;\n]` of the wave-detail capture. -/
def allowedWave (c : Char) : Bool := !(c == '.' || c == ';' || c == '\n')

/-- One character from an explicit class (case-sensitive). -/
def charIn (cs : List Char) (s : List Char) : Option (List Char) :=
  match s with
  | c :: rest => if cs.contains c then some rest else none
  | [] => none

/-- `\s*([^.;\n]+)`: greedy `\s*` with backtracking — try skipping `k`
whitespace characters for `k` from the maximal run down to `0`, taking the
first that leaves a nonempty capture run. -/
def waveTryWs : Nat → List Char → Option (List Char)
  | 0, s =>
    let cap := s.takeWhile allowedWave
    if cap.isEmpty then none else some cap
  | k + 1, s =>
    let cap := (s.drop (k + 1)).takeWhile allowedWave
    if cap.isEmpty then waveTryWs k s else some cap

/-- The capture part after `[Dd]etail`, including the optional colon: the
greedy `:?` consumes a colon when present, backtracking to leave it for the
capture class (which admits `:`) if the capture would otherwise be empty. -/
def waveCapAfter (s : List Char) : Option (List Char) :=
  match s with
  | ':' :: rest =>
    waveTryWs (rest.takeWhile isSpaceChar).length rest <|>
      waveTryWs (s.takeWhile isSpaceChar).length s
  | _ => waveTryWs (s.takeWhile isSpaceChar).length s

/-- Whole wave-detail pattern anchored here; returns group 1. -/
def waveAt (s : List Char) : Option (List Char) := do
  let s ← charIn ['W', 'w'] s
  let s ← dropLit "ave".data s
  let s ← wsPlus s
  let s ← charIn ['D', 'd'] s
  let s ← dropLit "etail".data s
  waveCapAfter s

/-- Leftmost search for the wave-detail pattern; returns group 1. -/
def waveSearch : List Char → Option (List Char)
  | [] => none
  | s@(_ :: rest) => waveAt s <|> waveSearch rest

/-- A separator match `\s+and\s+` (case-insensitive) anchored here. -/
def andSepAt (s : List Char) : Option (List Char) := do
  let s ← wsPlus s
  let s ← dropLitCI "and".data s
  wsPlus s

/-- `re.split(r"\s+and\s+", ·, flags=re.IGNORECASE)`: cut at each
non-overlapping leftmost separator match.  `acc` holds the current piece in
reverse; the fuel is the input length plus one. -/
def splitAnd : Nat → List Char → List Char → List (List Char)
  | 0, acc, s => [acc.reverse ++ s]
  | _ + 1, acc, [] => [acc.reverse]
  | fuel + 1, acc, s@(c :: rest) =>
    match andSepAt s with
    | some rem => acc.reverse :: splitAnd fuel [] rem
    | none => splitAnd fuel (c :: acc) rest

/-- `re.match(r"(\w+)\s+(\d+)\s+feet?\s+at\s+(\d+)\s+seconds?", p, re.IGNORECASE)`
anchored at the start of a part; returns the three groups. -/
def wavePartMatch (s : List Char) : Option (List Char × List Char × List Char) := do
  let (g1, s) ← takeSome isWordChar s
  let s ← wsPlus s
  let (g2, s) ← takeSome isDigitChar s
  let s ← feetEnd s
  let s ← wsPlus s
  let s ← dropLitCI "at".data s
  let s ← wsPlus s
  let (g3, s) ← takeSome isDigitChar s
  let s ← wsPlus s
  let _ ← dropLitCI "second".data s
  pure (g1, g2, g3)

/-- The fixed compass lookup table
`dirs = {"north": "N", ..., "southwest": "SW"}` with the fallback
`m.group(1).upper()[:2]`. -/
def dirAbbrev (w : List Char) : List Char :=
  let lw := w.map lowerChar
  if lw = "north".data then ['N']
  else if lw = "south".data then ['S']
  else if lw = "east".data then ['E']
  else if lw = "west".data then ['W']
  else if lw = "northeast".data then ['N', 'E']
  else if lw = "northwest".data then ['N', 'W']
  else if lw = "southeast".data then ['S', 'E']
  else if lw = "southwest".data then ['S', 'W']
  else (w.map upperChar).take 2

/-- Render one split part: a matching part becomes `{abbrev} {N}ft@{M}s`;
a non-matching part is kept verbatim after stripping, and dropped when its
strip is empty (`elif p.strip(): out.append(p.strip())`). -/
def wavePartRender (p : List Char) : Option (List Char) :=
  let q := trimWS p
  match wavePartMatch q with
  | some (g1, g2, g3) =>
    some (dirAbbrev g1 ++ [' '] ++ g2 ++ "ft@".data ++ g3 ++ ['s'])
  | none => if q.isEmpty then none else some q

/-- The whole wave-detail post-processing of the captured group:
strip, split on `and`, render each part, join with `" + "`. -/
def waveShorten (cap : List Char) : List Char :=
  let cap0 := trimWS cap
  List.intercalate " + ".data ((splitAnd (cap0.length + 1) [] cap0).filterMap wavePartRender)

/-! ### Precipitation
```
for kw in ["thunderstorm", "showers", "rain", "sunny", "partly cloudy", "cloudy", "clear"]:
    if kw.lower() in block.lower():
        m = re.search(r"([^.]*" + re.escape(kw) + r"[^.]*\.)", block, re.IGNORECASE)
        if m:
            data["precip"] = m.group(1).strip()[:90]
        break
```
-/

/-- The fixed keyword priority list. -/
def precipKeywords : List String :=
  ["thunderstorm", "showers", "rain", "sunny", "partly cloudy", "cloudy", "clear"]

/-- A match of `[^.]*kw[^.]*\.` anchored here: the period-free window from
this position must contain the keyword (case-insensitively) and be terminated
by a literal period.  The group is the whole match. -/
def sentenceAt (kw : List Char) (s : List Char) : Option (List Char) :=
  let w := s.takeWhile fun c => c != '.'
  if hasSubCI kw w && decide (w.length < s.length) then some (w ++ ['.']) else none

/-- Leftmost search for the keyword-sentence pattern. -/
def sentenceSearch (kw : List Char) : List Char → Option (List Char)
  | [] => none
  | s@(_ :: rest) => sentenceAt kw s <|> sentenceSearch kw rest

/-- The keyword loop with its `break`: the first keyword contained in the
lowercased block decides the outcome — its sentence stripped and truncated to
90 characters, or nothing at all when the sentence search fails (a keyword
with no terminating period).  Later keywords are never examined. -/
def precipLoop (block : List Char) : List String → Option (List Char)
  | [] => none
  | kw :: rest =>
    if hasSubList kw.data (block.map lowerChar) then
      match sentenceSearch kw.data block with
      | some cap => some ((trimWS cap).take 90)
      | none => none
    else precipLoop block rest

/-! ### `parse_zone` -/

/-- The initial record
`{"wind": "Check NWS", "gusts": "", "seas": "Check NWS", "wave_detail": "", "advisory": "", "precip": ""}`. -/
def zoneDefault : List (String × String) :=
  [("wind", "Check NWS"), ("gusts", ""), ("seas", "Check NWS"),
   ("wave_detail", ""), ("advisory", ""), ("precip", "")]

/-- The Field Extractor `parse_zone(text)` of `scripts/generate_card.py`
(lines 280–341): advisory over the whole text, then every remaining field
over the whitespace-collapsed today-block. -/
def parse_zone (text : String) : List (String × String) :=
  let s := text.data
  if s.isEmpty then zoneDefault else
  let d1 := applyOpt zoneDefault "advisory"
    ((advSearch s).map fun cap => (⟨pyTitle (trimWS cap)⟩ : String))
  let block := todayBlockOf s
  let d2 := applyOpt d1 "wind" ((windSearch block).map fun g => (⟨windValue g⟩ : String))
  let d3 := applyOpt d2 "gusts"
    ((gustsSearch block).map fun n => "Gusts to " ++ (⟨n⟩ : String) ++ " kt")
  let d4 := applyOpt d3 "seas" ((seasSearch block).map fun cap => (⟨cap⟩ : String) ++ " ft")
  let d5 := applyOpt d4 "wave_detail"
    ((waveSearch block).map fun cap => (⟨waveShorten cap⟩ : String))
  applyOpt d5 "precip" ((precipLoop block precipKeywords).map fun v => (⟨v⟩ : String))

/-! ### Advisory classifier
```
def get_advisories(zones: dict) -> list:
    found = set()
    for z in zones.values():
        adv = z.get("advisory", "")
        if adv:
            if "small craft" in adv.lower():   found.add("Small Craft Advisory")
            elif "gale" in adv.lower():         found.add("Gale Warning")
            elif "storm" in adv.lower():        found.add("Storm Warning")
            elif "hurricane" in adv.lower():    found.add("Hurricane Force Wind Warning")
            else:                               found.add(adv)
    return sorted(found) if found else ["No Active Advisories"]
```
The Python `set` is modelled as a duplicate-free list (`addToSet`), and
`sorted` as insertion sort with respect to the lexicographic string order,
which agrees with Python's code-point comparison. -/

/-- The classification chain applied to one non-empty advisory phrase. -/
def classifyAdv (adv : String) : String :=
  let l := adv.data.map lowerChar
  if hasSubList "small craft".data l then "Small Craft Advisory"
  else if hasSubList "gale".data l then "Gale Warning"
  else if hasSubList "storm".data l then "Storm Warning"
  else if hasSubList "hurricane".data l then "Hurricane Force Wind Warning"
  else adv

/-- `set.add`: insert an element only when absent. -/
def addToSet (acc : List String) (x : String) : List String :=
  if x ∈ acc then acc else acc ++ [x]

/-- One iteration of the `get_advisories` loop on zone record `z`. -/
def advStep (acc : List String) (z : List (String × String)) : List String :=
  let adv := (dget z "advisory").getD ""
  if adv ≠ "" then addToSet acc (classifyAdv adv) else acc

/-- The accumulation loop of `get_advisories` over the zone records. -/
def advFold (zones : List (List (String × String))) : List String :=
  zones.foldl advStep []

/-- The Advisory Classifier `get_advisories` (lines 347–357); the `zones`
dict's values are taken as a list of zone records. -/
def get_advisories (zones : List (List (String × String))) : List String :=
  let found := advFold zones
  if found = [] then ["No Active Advisories"]
  else List.insertionSort (fun a b => a ≤ b) found

/-! ### Synopsis extractor
```
for pattern in [
    r"\.SYNOPSIS\.\.\.(.+?)(?=\n\.[A-Z]|\$\$|\Z)",
    r"SYNOPSIS[^\n]*\n(.+?)(?=\n[A-Z]{3}[0-9]|\$\$|\nAMZ|\Z)",
]:
    m = re.search(pattern, text, re.DOTALL | re.IGNORECASE)
    if m:
        return re.sub(r"\s+", " ", m.group(1).strip())[:420]
return ""
```
(the pure part of `fetch_synopsis`, lines 263–274, applied to the already
fetched bulletin text; an empty fetch result returns `""` up front).
Note that under `re.IGNORECASE` the class `[A-Z]` also matches `a`–`z`. -/

/-- Lookahead `(?=\n\.[A-Z]|\$\$)` of the first synopsis pattern. -/
def synStop1 (s : List Char) : Bool :=
  (match s with
   | '\n' :: '.' :: c :: _ => isLetterChar c
   | _ => false) || (dropLit "$$".data s).isSome

/-- Lookahead `(?=\n[A-Z]{3}[0-9]|\$\$|\nAMZ)` of the second pattern. -/
def synStop2 (s : List Char) : Bool :=
  (match s with
   | '\n' :: a :: b :: c :: d :: _ =>
     isLetterChar a && isLetterChar b && isLetterChar c && isDigitChar d
   | _ => false) ||
  (dropLit "$$".data s).isSome ||
  (match s with
   | '\n' :: rest => (dropLitCI "AMZ".data rest).isSome
   | _ => false)

/-- Lazy `(.+?)(?=stop|\Z)`: at least one character, then extend minimally. -/
def cap1Plus (stop : List Char → Bool) : List Char → Option (List Char)
  | [] => none
  | c :: rest => some (c :: lazyUpTo stop rest)

/-- Leftmost search for `\.SYNOPSIS\.\.\.(.+?)(?=\n\.[A-Z]|\$\$|\Z)`. -/
def synSearch1 : List Char → Option (List Char)
  | [] => none
  | s@(_ :: rest) =>
    (dropLitCI ".SYNOPSIS...".data s >>= cap1Plus synStop1) <|> synSearch1 rest

/-- Leftmost search for `SYNOPSIS[^\n]*\n(.+?)(?=\n[A-Z]{3}[0-9]|\$\$|\nAMZ|\Z)`:
after the keyword, greedy `[^\n]*` runs to the end of the line and the
mandatory `\n` must follow (a keyword on the final line fails). -/
def synSearch2 : List Char → Option (List Char)
  | [] => none
  | s@(_ :: rest) =>
    (match dropLitCI "SYNOPSIS".data s with
     | some r =>
       match r.dropWhile (fun c => c != '\n') with
       | '\n' :: body => cap1Plus synStop2 body
       | _ => none
     | none => none) <|> synSearch2 rest

/-- The Synopsis Extractor: the pattern cascade of `fetch_synopsis` applied
to the fetched combined-bulletin text. -/
def fetch_synopsis (text : String) : String :=
  let s := text.data
  if s.isEmpty then "" else
  match synSearch1 s with
  | some g => (⟨(collapseWS (trimWS g)).take 420⟩ : String)
  | none =>
    match synSearch2 s with
    | some g => (⟨(collapseWS (trimWS g)).take 420⟩ : String)
    | none => ""

/-! ### Moon phase (`get_moon_phase`, lines 162–169)
```
elapsed    = (now_utc - KNOWN_NEW_MOON).total_seconds() / 86400
cycle_pos  = (elapsed % SYNODIC) / SYNODIC
illumination = int((1 - math.cos(2 * math.pi * cycle_pos)) / 2 * 100)
```
Python floats are modelled as real numbers; `elapsed` (days since the
reference new moon, negative before it) is the function's input. -/

/-- `SYNODIC = 29.53058867`. -/
def SYNODIC : ℝ := 29.53058867

/-- Python's `%` on floats: the sign-correct (floor-based) modulus
`a - b * ⌊a / b⌋`, whose result for `b > 0` lies in `[0, b)` — unlike the
truncating remainder of C's `fmod`. -/
noncomputable def pyFMod (a b : ℝ) : ℝ := a - b * ⌊a / b⌋

/-- `cycle_pos = (elapsed % SYNODIC) / SYNODIC`. -/
noncomputable def cycle_pos (elapsed : ℝ) : ℝ := pyFMod elapsed SYNODIC / SYNODIC

/-- Python's `int()` on a float: truncation toward zero. -/
noncomputable def pyTrunc (x : ℝ) : ℤ := if 0 ≤ x then ⌊x⌋ else -⌊-x⌋

/-- `illumination = int((1 - math.cos(2 * math.pi * c)) / 2 * 100)`. -/
noncomputable def illumination (c : ℝ) : ℤ :=
  pyTrunc ((1 - Real.cos (2 * Real.pi * c)) / 2 * 100)

/-- Modelled from the spec: the spec's formula
`illumination = round((1 − cos(2π·c)) / 2 × 100)` with genuine
round-to-nearest, stated for comparison with the code's `illumination`. -/
noncomputable def illuminationSpec (c : ℝ) : ℤ :=
  round ((1 - Real.cos (2 * Real.pi * c)) / 2 * 100)

/-! ## Lemmas about the dictionary model -/

theorem dget_dset_self : ∀ (d : List (String × String)) (k v : String),
    dget (dset d k v) k = some v
  | [], k, v => by simp [dget, dset]
  | (a, b) :: rest, k, v => by
    by_cases h : k = a
    · simp [dget, dset, h]
    · simp [dget, dset, h, dget_dset_self rest k v]

theorem dget_dset_ne : ∀ (d : List (String × String)) (k k' v : String), k ≠ k' →
    dget (dset d k' v) k = dget d k
  | [], k, k', v, h => by simp [dget, dset, h]
  | (a, b) :: rest, k, k', v, h => by
    by_cases h2 : k' = a
    · subst h2
      simp [dget, dset, h]
    · by_cases h3 : k = a
      · simp [dget, dset, h2, h3]
      · simp [dget, dset, h2, h3, dget_dset_ne rest k k' v h]

theorem dget_applyOpt_ne (d : List (String × String)) (k k' : String)
    (o : Option String) (h : k ≠ k') : dget (applyOpt d k' o) k = dget d k := by
  cases o with
  | none => rfl
  | some v => simpa [applyOpt] using dget_dset_ne d k k' v h

theorem isSome_dget_applyOpt (d : List (String × String)) {k : String} (k' : String)
    (o : Option String) (h : (dget d k).isSome = true) :
    (dget (applyOpt d k' o) k).isSome = true := by
  cases o with
  | none => exact h
  | some v =>
    by_cases h2 : k = k'
    · subst h2
      simp [applyOpt, dget_dset_self]
    · simpa [applyOpt, dget_dset_ne d k k' v h2] using h

/-- Every field that the initial record carries is still present (bound to
`some` value) in the final record, for every input text. -/
theorem parse_zone_isSome_of_default (text : String) (k : String)
    (h : (dget zoneDefault k).isSome = true) :
    (dget (parse_zone text) k).isSome = true := by
  by_cases he : text.data.isEmpty = true
  · simpa [parse_zone, he]
  · simp only [parse_zone, he, if_false, Bool.false_eq_true]
    exact isSome_dget_applyOpt _ _ _ (isSome_dget_applyOpt _ _ _
      (isSome_dget_applyOpt _ _ _ (isSome_dget_applyOpt _ _ _
        (isSome_dget_applyOpt _ _ _ (isSome_dget_applyOpt _ _ _ h)))))

/-- C1: for every input string — empty or arbitrarily malformed — the Field
Extractor `parse_zone` is a total function (no exception path exists in the
embedding) and returns a record in which each of the fields `wind`, `gusts`,
`seas`, `wave_detail`, `advisory` and `precip` is present, possibly at its
default/empty value. -/
theorem C1_parse_zone_total_complete (text : String) (k : String)
    (hk : k ∈ ["wind", "gusts", "seas", "wave_detail", "advisory", "precip"]) :
    (dget (parse_zone text) k).isSome = true := by
  apply parse_zone_isSome_of_default
  fin_cases hk <;> decide

/-- Witness for C1 at the empty string and at a malformed bulletin. -/
theorem C1_witness :
    (dget (parse_zone "") "wind").isSome = true ∧
    (dget (parse_zone "@@ total garbage ##") "wind").isSome = true ∧
    (dget (parse_zone "@@ total garbage ##") "gusts").isSome = true ∧
    (dget (parse_zone "@@ total garbage ##") "seas").isSome = true ∧
    (dget (parse_zone "@@ total garbage ##") "wave_detail").isSome = true ∧
    (dget (parse_zone "@@ total garbage ##") "advisory").isSome = true ∧
    (dget (parse_zone "@@ total garbage ##") "precip").isSome = true :=
  ⟨C1_parse_zone_total_complete "" "wind" (by decide),
   C1_parse_zone_total_complete _ "wind" (by decide),
   C1_parse_zone_total_complete _ "gusts" (by decide),
   C1_parse_zone_total_complete _ "seas" (by decide),
   C1_parse_zone_total_complete _ "wave_detail" (by decide),
   C1_parse_zone_total_complete _ "advisory" (by decide),
   C1_parse_zone_total_complete _ "precip" (by decide)⟩

/-! ## Lemmas about the advisory classifier -/

theorem addToSet_nodup {acc : List String} (x : String) (h : acc.Nodup) :
    (addToSet acc x).Nodup := by
  unfold addToSet
  by_cases hm : x ∈ acc
  · simpa [hm]
  · simpa [hm, List.nodup_append] using h

theorem addToSet_idem (acc : List String) (x : String) :
    addToSet (addToSet acc x) x = addToSet acc x := by
  unfold addToSet
  by_cases hm : x ∈ acc
  · simp [hm]
  · simp [hm]

theorem advStep_nodup {acc : List String} (z : List (String × String))
    (h : acc.Nodup) : (advStep acc z).Nodup := by
  simp only [advStep]
  split
  · exact addToSet_nodup _ h
  · exact h

theorem foldl_advStep_nodup : ∀ (zones : List (List (String × String)))
    (acc : List String), acc.Nodup → (zones.foldl advStep acc).Nodup
  | [], _, h => h
  | z :: rest, acc, h => foldl_advStep_nodup rest (advStep acc z) (advStep_nodup z h)

theorem foldl_advStep_of_empty : ∀ (zones : List (List (String × String)))
    (acc : List String), (∀ z ∈ zones, (dget z "advisory").getD "" = "") →
    zones.foldl advStep acc = acc
  | [], _, _ => rfl
  | z :: rest, acc, h => by
    have hz : (dget z "advisory").getD "" = "" := h z (by simp)
    have hstep : advStep acc z = acc := by simp [advStep, hz]
    rw [List.foldl_cons, hstep]
    exact foldl_advStep_of_empty rest acc fun z' hz' => h z' (by simp [hz'])

/-- The classification chain maps the exact phrase to itself. -/
theorem classifyAdv_sca : classifyAdv "Small Craft Advisory" = "Small Craft Advisory" := by
  decide

theorem foldl_advStep_sca_cases : ∀ (zones : List (List (String × String)))
    (acc : List String),
    (∀ z ∈ zones, (dget z "advisory").getD "" = "" ∨
      (dget z "advisory").getD "" = "Small Craft Advisory") →
    zones.foldl advStep acc = acc ∨
      zones.foldl advStep acc = addToSet acc "Small Craft Advisory"
  | [], _, _ => Or.inl rfl
  | z :: rest, acc, h => by
    have hrest : ∀ z' ∈ rest, (dget z' "advisory").getD "" = "" ∨
        (dget z' "advisory").getD "" = "Small Craft Advisory" :=
      fun z' hz' => h z' (by simp [hz'])
    rcases h z (by simp) with hz | hz
    · have hstep : advStep acc z = acc := by simp [advStep, hz]
      rw [List.foldl_cons, hstep]
      exact foldl_advStep_sca_cases rest acc hrest
    · have hstep : advStep acc z = addToSet acc "Small Craft Advisory" := by
        simp [advStep, hz, classifyAdv_sca]
      rw [List.foldl_cons, hstep]
      rcases foldl_advStep_sca_cases rest (addToSet acc "Small Craft Advisory") hrest with
        h' | h'
      · exact Or.inr h'
      · rw [h', addToSet_idem]
        exact Or.inr rfl

theorem foldl_advStep_sca_mem : ∀ (zones : List (List (String × String)))
    (acc : List String),
    (∀ z ∈ zones, (dget z "advisory").getD "" = "" ∨
      (dget z "advisory").getD "" = "Small Craft Advisory") →
    (∃ z ∈ zones, (dget z "advisory").getD "" = "Small Craft Advisory") →
    zones.foldl advStep acc = addToSet acc "Small Craft Advisory"
  | [], _, _, hex => by simp at hex
  | z :: rest, acc, h, hex => by
    have hrest : ∀ z' ∈ rest, (dget z' "advisory").getD "" = "" ∨
        (dget z' "advisory").getD "" = "Small Craft Advisory" :=
      fun z' hz' => h z' (by simp [hz'])
    rcases h z (by simp) with hz | hz
    · have hstep : advStep acc z = acc := by simp [advStep, hz]
      rw [List.foldl_cons, hstep]
      rcases hex with ⟨z', hz', hadv⟩
      rcases List.mem_cons.mp hz' with rfl | hz'mem
      · exact absurd hadv (by simp [hz])
      · exact foldl_advStep_sca_mem rest acc hrest ⟨z', hz'mem, hadv⟩
    · have hstep : advStep acc z = addToSet acc "Small Craft Advisory" := by
        simp [advStep, hz, classifyAdv_sca]
      rw [List.foldl_cons, hstep]
      rcases foldl_advStep_sca_cases rest (addToSet acc "Small Craft Advisory") hrest with
        h' | h'
      · exact h'
      · rw [h', addToSet_idem]

/-- C2: for every map of zone records, `get_advisories` returns a list that
is non-empty, sorted lexicographically, and free of duplicates; when no zone
record has a non-empty advisory phrase it returns exactly
`["No Active Advisories"]`, and when the only non-empty advisory phrases are
`"Small Craft Advisory"` (at least one zone carrying it) it returns exactly
`["Small Craft Advisory"]`. -/
theorem C2_get_advisories_invariants (zones : List (List (String × String))) :
    get_advisories zones ≠ [] ∧
    List.Sorted (fun a b => a ≤ b) (get_advisories zones) ∧
    (get_advisories zones).Nodup ∧
    ((∀ z ∈ zones, (dget z "advisory").getD "" = "") →
      get_advisories zones = ["No Active Advisories"]) ∧
    ((∀ z ∈ zones, (dget z "advisory").getD "" = "" ∨
        (dget z "advisory").getD "" = "Small Craft Advisory") →
      (∃ z ∈ zones, (dget z "advisory").getD "" = "Small Craft Advisory") →
      get_advisories zones = ["Small Craft Advisory"]) := by
  have hnodup : (advFold zones).Nodup := foldl_advStep_nodup zones [] (by simp)
  have hperm := List.perm_insertionSort (fun a b : String => a ≤ b) (advFold zones)
  refine ⟨?_, ?_, ?_, ?_, ?_⟩
  · simp only [get_advisories]
    split
    · simp
    · intro hnil
      rename_i hne
      rw [hnil] at hperm
      exact hne hperm.symm.eq_nil
  · simp only [get_advisories]
    split
    · simp
    · exact List.sorted_insertionSort _ _
  · simp only [get_advisories]
    split
    · simp
    · exact hperm.nodup_iff.mpr hnodup
  · intro h
    have : advFold zones = [] := foldl_advStep_of_empty zones [] h
    simp [get_advisories, this]
  · intro hall hex
    have hfold : advFold zones = ["Small Craft Advisory"] := by
      have := foldl_advStep_sca_mem zones [] hall hex
      simpa [advFold, addToSet] using this
    simp [get_advisories, hfold, List.insertionSort, List.orderedInsert]

/-- Witness for C2: the sentinel on an empty zone map and the pure
small-craft case on a one-zone map. -/
theorem C2_witness :
    get_advisories [] = ["No Active Advisories"] ∧
    get_advisories [[("advisory", "Small Craft Advisory")]] = ["Small Craft Advisory"] :=
  ⟨(C2_get_advisories_invariants []).2.2.2.1 (by simp),
   (C2_get_advisories_invariants [[("advisory", "Small Craft Advisory")]]).2.2.2.2
     (by decide) (by decide)⟩

/-! ## Lemmas about the precipitation scan -/

theorem applyOpt_none (d : List (String × String)) (k : String) :
    applyOpt d k none = d := rfl

/-- The `precip` field of the result is exactly the outcome of the keyword
loop over the today-block (its default `""` when the loop sets nothing). -/
theorem parse_zone_precip_eq (text : String) :
    dget (parse_zone text) "precip" =
      some ⟨(precipLoop (todayBlockOf text.data) precipKeywords).getD []⟩ := by
  by_cases he : text.data.isEmpty = true
  · have hd : text.data = [] := by simpa using he
    simp only [parse_zone, hd]
    decide
  · simp only [parse_zone, he, if_false, Bool.false_eq_true]
    cases hp : precipLoop (todayBlockOf text.data) precipKeywords with
    | some v => simp [hp, applyOpt, dget_dset_self]
    | none =>
      simp only [hp, Option.map_none', applyOpt_none]
      rw [dget_applyOpt_ne _ "precip" "wave_detail" _ (by decide),
          dget_applyOpt_ne _ "precip" "seas" _ (by decide),
          dget_applyOpt_ne _ "precip" "gusts" _ (by decide),
          dget_applyOpt_ne _ "precip" "wind" _ (by decide),
          dget_applyOpt_ne _ "precip" "advisory" _ (by decide)]
      decide

/-- Whatever the keyword list, the loop's outcome is at most 90 characters. -/
theorem precipLoop_getD_length_le : ∀ (ks : List String) (block : List Char),
    ((precipLoop block ks).getD []).length ≤ 90
  | [], _ => by simp [precipLoop]
  | kw :: rest, block => by
    simp only [precipLoop]
    split
    · cases hs : sentenceSearch kw.data block with
      | some cap => simp [hs, List.length_take]
      | none => simp [hs]
    · exact precipLoop_getD_length_le rest block

/-- The loop with its `break` equals: find the first keyword (in the given
priority order) contained in the lowercased block, and resolve only that
keyword's sentence search. -/
theorem precipLoop_eq_find : ∀ (ks : List String) (block : List Char),
    precipLoop block ks =
      (ks.find? fun kw => hasSubList kw.data (block.map lowerChar)).bind
        fun kw => (sentenceSearch kw.data block).map fun cap => (trimWS cap).take 90
  | [], _ => by simp [precipLoop]
  | kw :: rest, block => by
    by_cases h : hasSubList kw.data (block.map lowerChar) = true
    · simp only [precipLoop, List.find?, h, if_true]
      cases hs : sentenceSearch kw.data block <;> simp [hs]
    · have h' : hasSubList kw.data (block.map lowerChar) = false := by
        simpa using h
      simp only [precipLoop, List.find?, h', if_false, Bool.false_eq_true]
      exact precipLoop_eq_find rest block

/-- C6: precipitation extraction scans the today-block for the keywords in
the fixed priority order `["thunderstorm", "showers", "rain", "sunny",
"partly cloudy", "cloudy", "clear"]` (case-insensitively); the first keyword
contained in the block alone decides the result — the sentence containing it
truncated to at most 90 characters — so the `precip` field never exceeds 90
characters and never reflects a lower-priority keyword when a
higher-priority one is present. -/
theorem C6_precip_priority_and_truncation (text : String) :
    dget (parse_zone text) "precip" =
      some ⟨(precipLoop (todayBlockOf text.data) precipKeywords).getD []⟩ ∧
    ((precipLoop (todayBlockOf text.data) precipKeywords).getD []).length ≤ 90 ∧
    precipLoop (todayBlockOf text.data) precipKeywords =
      (precipKeywords.find? fun kw =>
          hasSubList kw.data ((todayBlockOf text.data).map lowerChar)).bind
        fun kw => (sentenceSearch kw.data (todayBlockOf text.data)).map
          fun cap => (trimWS cap).take 90 :=
  ⟨parse_zone_precip_eq text,
   precipLoop_getD_length_le precipKeywords (todayBlockOf text.data),
   precipLoop_eq_find precipKeywords (todayBlockOf text.data)⟩

/-- C10: when the first keyword of the priority order present in the
today-block has no sentence terminated by a period, the Field Extractor
leaves `precip` as the empty string and still stops scanning — no
lower-priority keyword is consulted. -/
theorem C10_keyword_without_period (text : String) (kw : String)
    (h1 : (precipKeywords.find? fun k =>
        hasSubList k.data ((todayBlockOf text.data).map lowerChar)) = some kw)
    (h2 : sentenceSearch kw.data (todayBlockOf text.data) = none) :
    dget (parse_zone text) "precip" = some "" := by
  have h3 := precipLoop_eq_find precipKeywords (todayBlockOf text.data)
  rw [h1] at h3
  simp only [h2, Option.map_none', Option.some_bind] at h3
  have h4 := parse_zone_precip_eq text
  rw [h3] at h4
  exact h4

/-- Witness for C10: in `".TODAY...Mostly cloudy. Later showers"` the first
present keyword is `"showers"`, whose sentence has no terminating period, so
`precip` is empty — even though the lower-priority keyword `"cloudy"` has a
perfectly extractable sentence. -/
theorem C10_witness :
    dget (parse_zone ".TODAY...Mostly cloudy. Later showers") "precip" = some "" ∧
    sentenceSearch "cloudy".data
      (todayBlockOf ".TODAY...Mostly cloudy. Later showers".data) =
      some "Mostly cloudy.".data :=
  ⟨C10_keyword_without_period ".TODAY...Mostly cloudy. Later showers" "showers"
     (by decide) (by decide),
   by decide⟩

/-! ## Wind extraction (C3) -/

/-- C3 counterexample: a bulletin whose TODAY window contains the claim's
phrase `"winds Northeast 15 to 20 knots"` verbatim.  The wind regex demands
the direction BEFORE the word `winds` (`DIR \s+ winds? \s+ ...`), so this
word order matches nothing and the field keeps its default `"Check NWS"` —
not the claimed `"Northeast 15 to 20 kt"`. -/
theorem C3_counterexample :
    hasSubList "winds Northeast 15 to 20 knots".data
      (todayBlockOf ".TODAY...Expect winds Northeast 15 to 20 knots today.".data) = true ∧
    dget (parse_zone ".TODAY...Expect winds Northeast 15 to 20 knots today.") "wind" =
      some "Check NWS" ∧
    (some "Check NWS" : Option String) ≠ some "Northeast 15 to 20 kt" := by
  refine ⟨by decide, by decide, by decide⟩

/-- C3 amended: with the direction-first bulletin order
`"Northeast winds 15 to 20 knots"`, the leftmost regex match starts at the
`"east"` suffix of `"Northeast"` (the alternative `North` cannot be followed
by the required whitespace), so wind extraction yields `"east 15 to 20 kt"`. -/
theorem C3_amended :
    dget (parse_zone ".TODAY...Northeast winds 15 to 20 knots today.") "wind" =
      some "east 15 to 20 kt" := by
  decide

/-! ## Wave-detail shortening (C8) -/

/-- C8: the captured wave-detail text
`"East 5 feet at 6 seconds and Northwest 2 feet at 11 seconds"` is split on
`and`, each compass word is translated through the fixed lookup table, and
the result is exactly `"E 5ft@6s + NW 2ft@11s"` — both for the shortening
step itself and for the `wave_detail` field of a bulletin carrying this
text after a `Wave Detail:` marker. -/
theorem C8_wave_detail_example :
    waveShorten "East 5 feet at 6 seconds and Northwest 2 feet at 11 seconds".data =
      "E 5ft@6s + NW 2ft@11s".data ∧
    dget (parse_zone
        ".TODAY...Wave Detail: East 5 feet at 6 seconds and Northwest 2 feet at 11 seconds.")
      "wave_detail" = some "E 5ft@6s + NW 2ft@11s" := by
  refine ⟨by decide, by decide⟩

/-! ## Case-sensitivity of the wave-detail marker (C9) -/

/-- C9 counterexample: the wave-detail pattern
`[Ww]ave\s+[Dd]etail:?` is compiled WITHOUT `re.IGNORECASE`, so an all-caps
`"WAVE DETAIL:"` marker is not matched (the `ave`/`etail` parts are
lowercase literals) and yields an empty `wave_detail`, while
`"Wave Detail:"` yields the extracted value — contradicting the claim that
every Field Extractor match is case-insensitive. -/
theorem C9_counterexample :
    dget (parse_zone ".TODAY...WAVE DETAIL: East 5 feet at 6 seconds.") "wave_detail" =
      some "" ∧
    dget (parse_zone ".TODAY...Wave Detail: East 5 feet at 6 seconds.") "wave_detail" =
      some "E 5ft@6s" ∧
    (some "" : Option String) ≠ some "E 5ft@6s" := by
  refine ⟨by decide, by decide, by decide⟩

/-- C9 amended: the other extractor patterns carry `re.IGNORECASE` (e.g. a
lowercase advisory phrase is recognised), but the wave-detail marker is
matched only with `W`/`w` + `ave` and `D`/`d` + `etail` spellings:
`"wave detail:"` and `"Wave detail:"` work, all-caps `"WAVE DETAIL:"` does
not. -/
theorem C9_amended :
    dget (parse_zone ".TODAY...wave detail: East 5 feet at 6 seconds.") "wave_detail" =
      some "E 5ft@6s" ∧
    dget (parse_zone ".TODAY...Wave detail: East 5 feet at 6 seconds.") "wave_detail" =
      some "E 5ft@6s" ∧
    dget (parse_zone ".TODAY...WAVE DETAIL: East 5 feet at 6 seconds.") "wave_detail" =
      some "" ∧
    dget (parse_zone "small craft advisory in effect\n.TODAY...calm") "advisory" =
      some "Small Craft Advisory In Effect" := by
  refine ⟨by decide, by decide, by decide, by decide⟩

/-! ## Synopsis extractor (C7) -/

/-- C7: for every fetched synopsis bulletin text, the extractor returns a
whitespace-collapsed, stripped capture truncated to at most 420 characters
when one of its two patterns matches — trying them in order and taking the
first success — and returns the empty string when neither pattern matches or
the input text is empty. -/
theorem C7_synopsis_extractor (text : String) :
    (fetch_synopsis text).length ≤ 420 ∧
    (text = "" → fetch_synopsis text = "") ∧
    (synSearch1 text.data = none → synSearch2 text.data = none →
      fetch_synopsis text = "") ∧
    (∀ g, synSearch1 text.data = some g →
      fetch_synopsis text = (⟨(collapseWS (trimWS g)).take 420⟩ : String)) ∧
    (∀ g, synSearch1 text.data = none → synSearch2 text.data = some g →
      fetch_synopsis text = (⟨(collapseWS (trimWS g)).take 420⟩ : String)) := by
  by_cases he : text.data.isEmpty = true
  · have hd : text.data = [] := by simpa using he
    have hfe : fetch_synopsis text = "" := by simp [fetch_synopsis, he]
    refine ⟨by rw [hfe]; decide, fun _ => hfe, fun _ _ => hfe, ?_, ?_⟩
    · intro g hg
      rw [hd, show synSearch1 [] = none from rfl] at hg
      exact Option.noConfusion hg
    · intro g _ hg
      rw [hd, show synSearch2 [] = none from rfl] at hg
      exact Option.noConfusion hg
  · cases h1 : synSearch1 text.data with
    | some g =>
      have hfe : fetch_synopsis text = (⟨(collapseWS (trimWS g)).take 420⟩ : String) := by
        simp [fetch_synopsis, he, h1]
      refine ⟨?_, ?_, ?_, ?_, ?_⟩
      · rw [hfe]
        show ((collapseWS (trimWS g)).take 420).length ≤ 420
        rw [List.length_take]
        exact Nat.min_le_left _ _
      · intro h0
        rw [h0] at he
        exact absurd rfl he
      · intro hn _
        exact Option.noConfusion hn
      · intro g' hg'
        rw [← Option.some.inj hg']
        exact hfe
      · intro g' hn _
        exact Option.noConfusion hn
    | none =>
      cases h2 : synSearch2 text.data with
      | some g =>
        have hfe : fetch_synopsis text = (⟨(collapseWS (trimWS g)).take 420⟩ : String) := by
          simp [fetch_synopsis, he, h1, h2]
        refine ⟨?_, ?_, ?_, ?_, ?_⟩
        · rw [hfe]
          show ((collapseWS (trimWS g)).take 420).length ≤ 420
          rw [List.length_take]
          exact Nat.min_le_left _ _
        · intro h0
          rw [h0] at he
          exact absurd rfl he
        · intro _ hn
          exact Option.noConfusion hn
        · intro g' hg'
          exact Option.noConfusion hg'
        · intro g' _ hg2
          rw [← Option.some.inj hg2]
          exact hfe
      | none =>
        have hfe : fetch_synopsis text = "" := by
          simp [fetch_synopsis, he, h1, h2]
        refine ⟨by rw [hfe]; decide, fun _ => hfe, fun _ _ => hfe, ?_, ?_⟩
        · intro g' hg'
          exact Option.noConfusion hg'
        · intro g' _ hg2
          exact Option.noConfusion hg2

/-- Witness for C7 at a text that neither pattern matches. -/
theorem C7_witness :
    fetch_synopsis "plain bulletin text with no marker" = "" ∧
    (fetch_synopsis "plain bulletin text with no marker").length ≤ 420 :=
  ⟨(C7_synopsis_extractor "plain bulletin text with no marker").2.2.1 (by decide) (by decide),
   (C7_synopsis_extractor "plain bulletin text with no marker").1⟩

/-! ## Moon phase (C4, C5) -/

theorem SYNODIC_pos : (0 : ℝ) < SYNODIC := by norm_num [SYNODIC]

/-- The whole `cycle_pos` computation is the fractional part of
`elapsed / SYNODIC`. -/
theorem cycle_pos_eq_fract (elapsed : ℝ) :
    cycle_pos elapsed = Int.fract (elapsed / SYNODIC) := by
  have hS : (SYNODIC : ℝ) ≠ 0 := ne_of_gt SYNODIC_pos
  unfold cycle_pos pyFMod Int.fract
  field_simp

/-- C5: for every timestamp — including timestamps strictly before the
reference new moon, i.e. negative elapsed days — `cycle_pos` lies in
`[0, 1)`, because Python's `%` is a sign-correct (floor) modulus rather than
a truncating remainder. -/
theorem C5_cycle_pos_in_unit_interval (elapsed : ℝ) :
    0 ≤ cycle_pos elapsed ∧ cycle_pos elapsed < 1 := by
  rw [cycle_pos_eq_fract]
  exact ⟨Int.fract_nonneg _, Int.fract_lt_one _⟩

/-- C4 amended: the code computes the illumination with Python `int()`,
i.e. truncation toward zero — which on the nonnegative operand equals the
floor, not round-to-nearest — and the result is an integer in `[0, 100]`. -/
theorem C4_amended_illumination_truncates (elapsed : ℝ) :
    illumination (cycle_pos elapsed) =
      ⌊(1 - Real.cos (2 * Real.pi * cycle_pos elapsed)) / 2 * 100⌋ ∧
    0 ≤ illumination (cycle_pos elapsed) ∧
    illumination (cycle_pos elapsed) ≤ 100 := by
  have hc1 : Real.cos (2 * Real.pi * cycle_pos elapsed) ≤ 1 := Real.cos_le_one _
  have hc2 : -1 ≤ Real.cos (2 * Real.pi * cycle_pos elapsed) := Real.neg_one_le_cos _
  have h0 : 0 ≤ (1 - Real.cos (2 * Real.pi * cycle_pos elapsed)) / 2 * 100 := by
    nlinarith
  have h100 : (1 - Real.cos (2 * Real.pi * cycle_pos elapsed)) / 2 * 100 ≤ 100 := by
    nlinarith
  have htr : illumination (cycle_pos elapsed) =
      ⌊(1 - Real.cos (2 * Real.pi * cycle_pos elapsed)) / 2 * 100⌋ := by
    unfold illumination pyTrunc
    rw [if_pos h0]
  refine ⟨htr, ?_, ?_⟩
  · rw [htr]
    exact Int.floor_nonneg.mpr h0
  · rw [htr]
    have := Int.floor_le_floor (α := ℝ) h100
    simpa using this

/-- C4 counterexample: at the timestamp one eighth of a synodic month after
the reference new moon, `cycle_pos = 1/8` and the real illumination value is
`50 − 25·√2 ≈ 14.64`; the code's `int()` truncation yields `14` while the
spec's `round` yields `15`, so the illumination output is NOT the rounded
value. -/
theorem C4_counterexample_trunc_ne_round :
    cycle_pos (SYNODIC / 8) = 1 / 8 ∧
    illumination (cycle_pos (SYNODIC / 8)) = 14 ∧
    illuminationSpec (cycle_pos (SYNODIC / 8)) = 15 ∧
    illumination (cycle_pos (SYNODIC / 8)) ≠
      illuminationSpec (cycle_pos (SYNODIC / 8)) := by
  have hS : (SYNODIC : ℝ) ≠ 0 := ne_of_gt SYNODIC_pos
  have hcp : cycle_pos (SYNODIC / 8) = 1 / 8 := by
    rw [cycle_pos_eq_fract]
    have h1 : SYNODIC / 8 / SYNODIC = 1 / 8 := by
      field_simp
      ring
    rw [h1]
    exact Int.fract_eq_self.mpr ⟨by norm_num, by norm_num⟩
  have hcos : Real.cos (2 * Real.pi * (1 / 8 : ℝ)) = Real.sqrt 2 / 2 := by
    rw [show (2 : ℝ) * Real.pi * (1 / 8) = Real.pi / 4 by ring]
    exact Real.cos_pi_div_four
  have hsq : Real.sqrt 2 ^ 2 = 2 := Real.sq_sqrt (by norm_num)
  have hnn : (0 : ℝ) ≤ Real.sqrt 2 := Real.sqrt_nonneg 2
  have hlb : (1.41 : ℝ) < Real.sqrt 2 := by nlinarith
  have hub : Real.sqrt 2 < 1.42 := by nlinarith
  have hval : (1 - Real.cos (2 * Real.pi * (1 / 8 : ℝ))) / 2 * 100 =
      50 - 25 * Real.sqrt 2 := by
    rw [hcos]
    ring
  have h0 : 0 ≤ (1 - Real.cos (2 * Real.pi * (1 / 8 : ℝ))) / 2 * 100 := by
    rw [hval]
    nlinarith
  have hfloor : ⌊(1 - Real.cos (2 * Real.pi * (1 / 8 : ℝ))) / 2 * 100⌋ = 14 := by
    rw [hval]
    rw [Int.floor_eq_iff]
    constructor
    · push_cast
      nlinarith
    · push_cast
      nlinarith
  have hround : illuminationSpec (1 / 8) = 15 := by
    unfold illuminationSpec
    rw [round_eq, hval]
    rw [Int.floor_eq_iff]
    constructor
    · push_cast
      nlinarith
    · push_cast
      nlinarith
  have htr : illumination (1 / 8) = 14 := by
    unfold illumination pyTrunc
    rw [if_pos h0]
    exact hfloor
  refine ⟨hcp, ?_, ?_, ?_⟩
  · rw [hcp]
    exact htr
  · rw [hcp]
    exact hround
  · rw [hcp, htr, hround]
    decide

end Rabirubia
